import Mathlib

/-!
# Pine hook engine: arena allocator, hook installer, argument capture

A shallow embedding of `trampoline/memory.cpp` (`Memory::AllocUnprotected`)
and of `pine.cpp` (`Pine_hook0`, `Pine_getArgs64`, `Pine_getArgs32`),
followed by the properties proved about them.

Conventions.
* Pointers and `size_t` values are natural numbers below `2 ^ ptr_bits`;
  every addition the C++ performs on them is reduced modulo `2 ^ ptr_bits`.
* Calls that leave the translation unit (the kernel, the ART runtime, the
  trampoline installer, JNI) are not interpreted: the value such a call
  returns is an input of the model, and the call itself is recorded.
-/

namespace pine

/-! ## Executable memory arena (`trampoline/memory.cpp`) -/

/-- The target the library is built for: the pointer width and the value
`sysconf(_SC_PAGESIZE)` gave to `Memory::page_size`. -/
structure Platform where
  ptr_bits : Nat
  page_size : Nat
deriving DecidableEq

/-- Number of values of `uintptr_t` / `size_t`. -/
def Platform.word (pf : Platform) : Nat := 2 ^ pf.ptr_bits

/-- The constant `MAP_FAILED`, that is `(void *) -1`. -/
def MAP_FAILED (pf : Platform) : Nat := pf.word - 1

/-- The constant `ENOMEM` of `errno.h` on Linux. -/
def ENOMEM : Nat := 12

/-- The static members `Memory::address` and `Memory::offset`. -/
structure Memory where
  address : Nat
  offset : Nat
deriving DecidableEq

/-- The static initialisers: `address = 0`, `offset = 0`. -/
def Memory.initial : Memory := ⟨0, 0⟩

/-- What one call of `Memory::AllocUnprotected` does: the pointer it returns
(`0` is `nullptr`), the value it assigns to `errno` itself (if any), whether
it called `mmap`, and the static members afterwards. -/
structure AllocResult where
  ptr : Nat
  errno_assigned : Option Nat
  mmap_called : Bool
  st : Memory
deriving DecidableEq

/-- The function `Memory::AllocUnprotected(size)`. `mapped` is the value `mmap`
returns if the call gets as far as calling it. The lock is taken and dropped
inside the call; `prctl` (naming the mapping) and `memset` (zeroing the new
page) change neither the result nor the static members. -/
def Memory.AllocUnprotected (pf : Platform) (mapped : Nat) (size : Nat) (m : Memory) :
    AllocResult :=
  if size > pf.page_size then
    { ptr := 0, errno_assigned := some ENOMEM, mmap_called := false, st := m }
  else
    let next_offset := (m.offset + size) % pf.word
    if m.address ≠ 0 ∧ next_offset ≤ pf.page_size then
      { ptr := (m.address + m.offset) % pf.word, errno_assigned := none, mmap_called := false,
        st := { m with offset := next_offset } }
    else if mapped = MAP_FAILED pf then
      { ptr := 0, errno_assigned := none, mmap_called := true, st := m }
    else
      { ptr := mapped, errno_assigned := none, mmap_called := true,
        st := { address := mapped, offset := size } }

/-- One call to the allocator together with the answer of the kernel. -/
structure Call where
  size : Nat
  mapped : Nat
deriving DecidableEq

/-- The arena after a sequence of calls. -/
def run (pf : Platform) : List Call → Memory → Memory
  | [], m => m
  | c :: cs, m => run pf cs (Memory.AllocUnprotected pf c.mapped c.size m).st

/-- The page size leaves room for the cursor sum: `offset + size` with both
at most `page_size` stays below `2 ^ ptr_bits`. Holds for every real page
size (4 KiB, 16 KiB, 64 KiB). -/
def Platform.sane (pf : Platform) : Prop := 2 * pf.page_size < pf.word

instance (pf : Platform) : Decidable pf.sane := by unfold Platform.sane; infer_instance

/-- The contract of `mmap` for a page: either it fails, or the page it
returns lies inside the address space. -/
def mmap_in_range (pf : Platform) (mapped : Nat) : Prop :=
  mapped = MAP_FAILED pf ∨ mapped + pf.page_size ≤ pf.word

instance (pf : Platform) (mapped : Nat) : Decidable (mmap_in_range pf mapped) := by
  unfold mmap_in_range; infer_instance

/-- A call whose kernel answer respects the contract of `mmap`. -/
def Call.ok (pf : Platform) (c : Call) : Prop := mmap_in_range pf c.mapped

instance (pf : Platform) (c : Call) : Decidable (c.ok pf) := by
  unfold Call.ok; infer_instance

/-- The byte ranges `[a, a + la)` and `[b, b + lb)` do not overlap: one ends
before the other starts. -/
def ranges_disjoint (a la b lb : Nat) : Prop := a + la ≤ b ∨ b + lb ≤ a

instance (a la b lb : Nat) : Decidable (ranges_disjoint a la b lb) := by
  unfold ranges_disjoint; infer_instance

/-- The arena together with the record of what has happened so far: the
pages `mmap` has handed out and the non-null results with their sizes
(newest first). -/
structure History where
  mem : Memory
  pages : List Nat
  allocs : List (Nat × Nat)
deriving DecidableEq

/-- Nothing mapped, nothing allocated. -/
def History.initial : History := ⟨Memory.initial, [], []⟩

/-- One call, recorded. -/
def History.step (pf : Platform) (c : Call) (h : History) : History :=
  let r := Memory.AllocUnprotected pf c.mapped c.size h.mem
  { mem := r.st
    pages := if r.mmap_called = true ∧ c.mapped ≠ MAP_FAILED pf then c.mapped :: h.pages
             else h.pages
    allocs := if r.ptr ≠ 0 then (r.ptr, c.size) :: h.allocs else h.allocs }

/-- A sequence of calls, recorded. -/
def History.run (pf : Platform) : List Call → History → History
  | [], h => h
  | c :: cs, h => History.run pf cs (h.step pf c)

/-- A page returned by a successful `mmap` is new: not null, inside the
address space, and disjoint from every page mapped before. -/
def fresh_page (pf : Platform) (pages : List Nat) (mapped : Nat) : Prop :=
  mapped ≠ 0 ∧ mapped + pf.page_size ≤ pf.word ∧
    ∀ q ∈ pages, ranges_disjoint mapped pf.page_size q pf.page_size

instance (pf : Platform) (pages : List Nat) (mapped : Nat) :
    Decidable (fresh_page pf pages mapped) := by
  unfold fresh_page; infer_instance

/-- Every `mmap` that is actually called during the sequence and succeeds
returns a fresh page. -/
def mmap_fresh (pf : Platform) : List Call → History → Prop
  | [], _ => True
  | c :: cs, h =>
    ((Memory.AllocUnprotected pf c.mapped c.size h.mem).mmap_called = true →
        c.mapped ≠ MAP_FAILED pf → fresh_page pf h.pages c.mapped) ∧
      mmap_fresh pf cs (h.step pf c)

instance mmap_fresh_decidable (pf : Platform) :
    (cs : List Call) → (h : History) → Decidable (mmap_fresh pf cs h)
  | [], _ => isTrue trivial
  | c :: cs, h => by
    unfold mmap_fresh
    have := mmap_fresh_decidable pf cs (h.step pf c)
    infer_instance

/-- The invariant of the arena: the cursor is inside the page, and a current
page lies inside the address space. -/
def Memory.inv (pf : Platform) (m : Memory) : Prop :=
  m.offset ≤ pf.page_size ∧ (m.address ≠ 0 → m.address + pf.page_size ≤ pf.word)

/-- The invariant of the recorded arena. -/
structure History.inv (pf : Platform) (h : History) : Prop where
  off : h.mem.offset ≤ pf.page_size
  cur : h.mem.address ≠ 0 → h.mem.address ∈ h.pages
  inr : ∀ q ∈ h.pages, q + pf.page_size ≤ pf.word
  pg : ∀ q ∈ h.pages, ∀ q2 ∈ h.pages, q ≠ q2 → ranges_disjoint q pf.page_size q2 pf.page_size
  own : ∀ a ∈ h.allocs, ∃ q ∈ h.pages, q ≤ a.1 ∧ a.1 + a.2 ≤ q + pf.page_size ∧
    (q = h.mem.address → a.1 + a.2 ≤ h.mem.address + h.mem.offset)
  dis : h.allocs.Pairwise (fun a b => ranges_disjoint a.1 a.2 b.1 b.2)

/-! ## Hook installer (`pine.cpp`, `Pine_hook0`) -/

/-- The calls `Pine_hook0` makes to its collaborators, with the arguments
that matter. `SuspendVM` and `ResumeVM` are the acquisition and the release
of the pause token. -/
inductive Event where
  | Compile (bridge thread : Nat)
  | CannotSafeInlineHook (target : Nat)
  | AllocObject
  | DecodeJObject
  | New
  | SuspendVM
  | ResumeVM
  | InstallInlineTrampoline (target bridge : Nat)
  | InstallReplacementTrampoline (target bridge : Nat)
  | BackupFrom (backup target call_origin : Nat) (is_inline_hook is_native_or_proxy : Bool)
  | AfterHook (target : Nat) (is_inline_hook debuggable is_native_or_proxy : Bool)
  | ThrowNewException (cls msg : String)
  | ToReflectedMethod (backup : Nat)
deriving DecidableEq

/-- The arguments of `Pine_hook0`: `target` and `bridge` are the
`ArtMethod *` that `FromReflectedMethod` resolves `javaTarget` and
`javaBridge` to (`0` when unresolved). -/
structure HookRequest where
  threadAddress : Nat
  target : Nat
  bridge : Nat
  isInlineHook : Bool
  isNativeOrProxy : Bool
deriving DecidableEq

/-- The globals `Pine_hook0` reads and the answers of its collaborators:
`mirror_class` is `WellKnownClasses::java_lang_reflect_ArtMethod != nullptr`,
`cannot_safe_inline` the value of `CannotSafeInlineHook(target)`,
`alloc_exception` the exception pending after `AllocObject`, `decoded` the
value of `DecodeJObject`, `new_backup` and `new_errno` the value of
`ArtMethod::New()` and `errno` after it, `inline_origin` and
`replacement_origin` the values of the two install functions, `reflected`
the value of `ToReflectedMethod`. -/
structure Runtime where
  debuggable : Bool
  mirror_class : Bool
  cannot_safe_inline : Bool
  alloc_exception : Option String
  decoded : Nat
  new_backup : Nat
  new_errno : Nat
  inline_origin : Nat
  replacement_origin : Nat
  reflected : Nat
deriving DecidableEq

/-- What `Pine_hook0` returns (`0` is `nullptr`), the Java exception left
pending, and the calls it made in order. -/
structure HookResult where
  ret : Nat
  pending_exception : Option String
  trace : List Event
deriving DecidableEq

/-- Modelled from the spec: `JNIHelper::ThrowNewException` (declared in
`utils/jni_helper.h`) raises a Java exception of the named class, which
stays pending when the native method returns. -/
def ThrowNewException (cls msg : String) (t : List Event) : Option String × List Event :=
  (some cls, t ++ [Event.ThrowNewException cls msg])

/-- Modelled from the spec: `art::ScopedSuspendVM` (declared in the ART
headers, not in this translation unit) is the scoped pause token. Its
constructor stops all other threads, its destructor resumes them, and the
destructor runs when the enclosing block is left; `body` are the calls made
inside the block. -/
def ScopedSuspendVM (body : List Event) : List Event :=
  [Event.SuspendVM] ++ body ++ [Event.ResumeVM]

/-- Lines 108-136 of `Pine_hook0`: the block that holds `suspend_vm`, and the
return. `is_inline_hook` is the local variable after the demotion, `backup`
the descriptor obtained before, `t` the calls made so far. -/
def Pine_hook0_install (rt : Runtime) (rq : HookRequest) (is_inline_hook : Bool)
    (backup : Nat) (t : List Event) : HookResult :=
  let call_origin := if is_inline_hook then rt.inline_origin else rt.replacement_origin
  let install :=
    [if is_inline_hook then Event.InstallInlineTrampoline rq.target rq.bridge
     else Event.InstallReplacementTrampoline rq.target rq.bridge]
  let block : List Event × Bool :=
    if call_origin ≠ 0 then
      (install ++
        [Event.BackupFrom backup rq.target call_origin is_inline_hook rq.isNativeOrProxy,
         Event.AfterHook rq.target is_inline_hook rt.debuggable rq.isNativeOrProxy], true)
    else (install, false)
  let t := t ++ ScopedSuspendVM block.1
  let success := block.2
  if success then
    { ret := rt.reflected, pending_exception := none,
      trace := t ++ [Event.ToReflectedMethod backup] }
  else
    let thrown := ThrowNewException "java/lang/RuntimeException" "hook failed" t
    { ret := 0, pending_exception := thrown.1, trace := thrown.2 }

/-- The native method `Pine_hook0`. -/
def Pine_hook0 (rt : Runtime) (rq : HookRequest) : HookResult :=
  let t := [Event.Compile rq.bridge rq.threadAddress]
  let t := if rq.isInlineHook then t ++ [Event.CannotSafeInlineHook rq.target] else t
  let is_inline_hook :=
    if rq.isInlineHook && rt.cannot_safe_inline then false else rq.isInlineHook
  if rt.mirror_class then
    let t := t ++ [Event.AllocObject]
    if rt.alloc_exception.isSome then
      { ret := 0, pending_exception := rt.alloc_exception, trace := t }
    else
      Pine_hook0_install rt rq is_inline_hook rt.decoded (t ++ [Event.DecodeJObject])
  else
    let t := t ++ [Event.New]
    if rt.new_backup = 0 then
      let local_errno := rt.new_errno
      let thrown :=
        if local_errno = ENOMEM then
          ThrowNewException "java/lang/OutOfMemoryError" "No memory for allocate backup method" t
        else
          ThrowNewException "java/lang/RuntimeException"
            "hook failed: cannot allocate backup method" t
      { ret := 0, pending_exception := thrown.1, trace := thrown.2 }
    else
      Pine_hook0_install rt rq is_inline_hook rt.new_backup t

/-- The calls that may only happen while the other threads are stopped: the
two install functions, `BackupFrom` and `AfterHook`. -/
def Event.needs_pause : Event → Bool
  | Event.InstallInlineTrampoline _ _ => true
  | Event.InstallReplacementTrampoline _ _ => true
  | Event.BackupFrom _ _ _ _ _ => true
  | Event.AfterHook _ _ _ _ => true
  | _ => false

/-- The calls that commit the hook to the method descriptors: `BackupFrom`
and `AfterHook`. -/
def Event.commits : Event → Bool
  | Event.BackupFrom _ _ _ _ _ => true
  | Event.AfterHook _ _ _ _ => true
  | _ => false

/-- The call is one of the two install functions. -/
def Event.is_install : Event → Bool
  | Event.InstallInlineTrampoline _ _ => true
  | Event.InstallReplacementTrampoline _ _ => true
  | _ => false

/-- Whether the pause token is held after the calls `t`, given whether it
was held before them. -/
def token_held_from : Bool → List Event → Bool
  | held, [] => held
  | _, Event.SuspendVM :: es => token_held_from true es
  | _, Event.ResumeVM :: es => token_held_from false es
  | held, _ :: es => token_held_from held es

/-- Whether the pause token is held after the calls `t` of a request. -/
def token_held (t : List Event) : Bool := token_held_from false t

/-- One pass over the calls: the token is acquired only when free, released
only when held, and every call that needs the pause is made while it is held. -/
def pause_discipline : Bool → List Event → Bool
  | _, [] => true
  | held, Event.SuspendVM :: es => !held && pause_discipline true es
  | held, Event.ResumeVM :: es => held && pause_discipline false es
  | held, e :: es => (!e.needs_pause || held) && pause_discipline held es

/-- The backup descriptor could not be allocated: `AllocObject` left an
exception pending, or `ArtMethod::New()` returned null. -/
def Runtime.backup_alloc_failed (rt : Runtime) : Prop :=
  if rt.mirror_class then rt.alloc_exception.isSome = true else rt.new_backup = 0

instance (rt : Runtime) : Decidable rt.backup_alloc_failed := by
  unfold Runtime.backup_alloc_failed; infer_instance

/-! ## Argument capture (`pine.cpp`, `Pine_getArgs64` and `Pine_getArgs32`) -/

/-- The saved argument registers of `trampoline/extras.h` that the capture
reads. -/
structure Extras where
  r1 : Nat
  r2 : Nat
  r3 : Nat
deriving DecidableEq

/-- What a capture leaves behind: the contents of the buffer `array` when it
is released, the addresses it read through `sp` in order, and whether
`extras->ReleaseLock()` was called. The buffer is the one
`GetPrimitiveArrayCritical` hands out, which on ART is the storage of the
Java array itself. -/
structure ArgsResult where
  array : List Nat
  stack_reads : List Nat
  lock_released : Bool
deriving DecidableEq

/-- A 32-bit `int` widened to the 64 bits of a `jlong`. -/
def sign_extend_32 (x : Nat) : Nat :=
  if x % 2 ^ 32 < 2 ^ 31 then x % 2 ^ 32 else x % 2 ^ 32 + (2 ^ 64 - 2 ^ 32)

/-- The address `sp + 8 + 8 * i` as the 64-bit variant computes it: `8 * i`
is an `int` product, the sum is a `jlong`. -/
def stack_arg_addr64 (sp i : Nat) : Nat := (sp + 8 + sign_extend_32 (8 * i)) % 2 ^ 64

/-- The address `sp + 4 + 4 * i` as the 32-bit variant computes it, in
`jint`. -/
def stack_arg_addr32 (sp i : Nat) : Nat := (sp + 4 + 4 * i) % 2 ^ 32

/-- The loop `for (int i = first; i < length; i++) array[i] = *(word *) addr(i)`:
the buffer afterwards and the addresses read. -/
def read_stack_args (mem : Nat → Nat) (addr : Nat → Nat) (first length : Nat)
    (array : List Nat) : List Nat × List Nat :=
  (List.range' first (length - first)).foldl
    (fun acc i => (acc.1.set i (mem (addr i)), acc.2 ++ [addr i])) (array, [])

/-- The native method `Pine_getArgs64`. `mem a` is the 8-byte word at address
`a`, `pinned` tells whether `GetPrimitiveArrayCritical` returned a buffer,
`javaArray` is the content of the array on entry; the result is `none` when
the function aborts the process. The `do ... while (false)` block with its
`break` statements is written as nested conditionals. -/
def Pine_getArgs64 (extras : Extras) (mem : Nat → Nat) (pinned : Bool)
    (javaArray : List Nat) (sp : Nat) : Option ArgsResult :=
  let length := javaArray.length
  if length > 0 then
    if !pinned then none
    else
      let array := javaArray
      let array := array.set 0 extras.r1
      if length = 1 then some ⟨array, [], true⟩
      else
        let array := array.set 1 extras.r2
        if length = 2 then some ⟨array, [], true⟩
        else
          let array := array.set 2 extras.r3
          if length < 8 then some ⟨array, [], true⟩
          else
            let r := read_stack_args mem (stack_arg_addr64 sp) 7 length array
            some ⟨r.1, r.2, true⟩
  else some ⟨javaArray, [], true⟩

/-- The first part of the `do` block of `Pine_getArgs32`, up to the end of
the `if (skipR1 == JNI_TRUE)` statement: the buffer, the addresses read, and
whether a `break` was taken. -/
def getArgs32_registers (extras : Extras) (mem : Nat → Nat) (array : List Nat) (sp : Nat)
    (skipR1 : Bool) : List Nat × List Nat × Bool :=
  let length := array.length
  if skipR1 = true then
    let array := array.set 0 extras.r2
    if length = 1 then (array, [], true)
    else
      let array := array.set 1 extras.r3
      if length = 2 then (array, [], true)
      else (array.set 2 (mem ((sp + 12) % 2 ^ 32)), [(sp + 12) % 2 ^ 32], false)
  else
    let array := array.set 0 extras.r1
    if length = 1 then (array, [], true)
    else
      let array := array.set 1 extras.r2
      if length = 2 then (array, [], true)
      else (array.set 2 extras.r3, [], false)

/-- The native method `Pine_getArgs32`. `mem a` is the 4-byte word at address
`a`; the other arguments are as for `Pine_getArgs64`. -/
def Pine_getArgs32 (extras : Extras) (mem : Nat → Nat) (pinned : Bool)
    (javaArray : List Nat) (sp : Nat) (skipR1 : Bool) : Option ArgsResult :=
  let length := javaArray.length
  if length > 0 then
    if !pinned then none
    else
      match getArgs32_registers extras mem javaArray sp skipR1 with
      | (array, reads, true) => some ⟨array, reads, true⟩
      | (array, reads, false) =>
        if length = 3 then some ⟨array, reads, true⟩
        else
          let r := read_stack_args mem (stack_arg_addr32 sp) 3 length array
          some ⟨r.1, reads ++ r.2, true⟩
  else some ⟨javaArray, [], true⟩

/-! ## Sample inputs -/

/-- A 64-bit target with 4 KiB pages. -/
def sample_platform : Platform := ⟨64, 4096⟩

/-- Four requests: one that leaves 10 bytes on the first page, one of 16
bytes, one larger than a page, one of 32 bytes. -/
def sample_calls : List Call := [⟨4086, 0x7000⟩, ⟨16, 0x9000⟩, ⟨5000, 0xb000⟩, ⟨32, 0xc000⟩]

/-- A current page at `0x7000` with 10 bytes free. -/
def nearly_full_page : Memory := ⟨0x7000, 4086⟩

/-- A request whose target and replacement are the same resolved method. -/
def same_method_request : HookRequest :=
  { threadAddress := 0x7000, target := 0x1000, bridge := 0x1000,
    isInlineHook := false, isNativeOrProxy := false }

/-- A runtime in which the backup descriptor is allocated and the
replacement trampoline is installed. -/
def obliging_runtime : Runtime :=
  { debuggable := false, mirror_class := false, cannot_safe_inline := false,
    alloc_exception := none, decoded := 0, new_backup := 0x2000, new_errno := 0,
    inline_origin := 0x3000, replacement_origin := 0x4000, reflected := 0x5000 }

/-- A request for an inline hook. -/
def inline_request : HookRequest :=
  { threadAddress := 0x7000, target := 0x1000, bridge := 0x1800,
    isInlineHook := true, isNativeOrProxy := false }

/-- A runtime whose code generator judges the target unsafe to patch inline. -/
def unsafe_inline_runtime : Runtime :=
  { debuggable := false, mirror_class := false, cannot_safe_inline := true,
    alloc_exception := none, decoded := 0, new_backup := 0x2000, new_errno := 0,
    inline_origin := 0x3000, replacement_origin := 0x4000, reflected := 0x5000 }

/-- A runtime in which `ArtMethod::New()` fails with `ENOMEM`. -/
def out_of_memory_runtime : Runtime :=
  { debuggable := false, mirror_class := false, cannot_safe_inline := false,
    alloc_exception := none, decoded := 0, new_backup := 0, new_errno := 12,
    inline_origin := 0x3000, replacement_origin := 0x4000, reflected := 0x5000 }

/-- Saved registers holding 11, 22 and 33. -/
def sample_extras : Extras := ⟨11, 22, 33⟩

/-- A memory in which the word at address `a` is `a + 1`. -/
def sample_stack (a : Nat) : Nat := a + 1

/-! ## Properties of the arena -/

theorem inv_initial (pf : Platform) : Memory.initial.inv pf := by
  simp [Memory.inv, Memory.initial]

theorem inv_step (pf : Platform) (c : Call) (hc : c.ok pf) (m : Memory) (hm : m.inv pf) :
    (Memory.AllocUnprotected pf c.mapped c.size m).st.inv pf := by
  obtain ⟨hoff, haddr⟩ := hm
  have hmap : mmap_in_range pf c.mapped := hc
  simp only [Memory.AllocUnprotected]
  split_ifs with h1 h2 h3
  · exact ⟨hoff, haddr⟩
  · exact ⟨h2.2, haddr⟩
  · exact ⟨hoff, haddr⟩
  · refine ⟨by simpa using h1, fun _ => ?_⟩
    rcases hmap with h | h
    · exact absurd h h3
    · exact h

theorem inv_run (pf : Platform) (cs : List Call) (hcs : ∀ c ∈ cs, c.ok pf) (m : Memory)
    (hm : m.inv pf) : (run pf cs m).inv pf := by
  induction cs generalizing m with
  | nil => exact hm
  | cons c cs ih =>
    simp only [run]
    exact ih (fun d hd => hcs d (List.mem_cons_of_mem _ hd)) _
      (inv_step pf c (hcs c (List.mem_cons_self _ _)) m hm)

/-- C1. In every arena state reachable from the initial one the cursor is at
most `page_size`, and every non-null pointer returned for `size` bytes lies,
with its `size` bytes, inside the page that is current after the call. The
pages the kernel returned on the way are assumed to lie inside the address
space, and the page size to be below half of it. -/
theorem arena_alloc_within_page (pf : Platform) (hpf : pf.sane) (cs : List Call)
    (hcs : ∀ c ∈ cs, c.ok pf) :
    (run pf cs Memory.initial).offset ≤ pf.page_size ∧
    ∀ mapped size : Nat,
      (Memory.AllocUnprotected pf mapped size (run pf cs Memory.initial)).st.offset ≤
        pf.page_size ∧
      ((Memory.AllocUnprotected pf mapped size (run pf cs Memory.initial)).ptr ≠ 0 →
        (Memory.AllocUnprotected pf mapped size (run pf cs Memory.initial)).st.address ≤
          (Memory.AllocUnprotected pf mapped size (run pf cs Memory.initial)).ptr ∧
        (Memory.AllocUnprotected pf mapped size (run pf cs Memory.initial)).ptr + size ≤
          (Memory.AllocUnprotected pf mapped size (run pf cs Memory.initial)).st.address +
            pf.page_size) := by
  have hinv := inv_run pf cs hcs Memory.initial (inv_initial pf)
  refine ⟨hinv.1, fun mapped size => ?_⟩
  generalize run pf cs Memory.initial = m at hinv ⊢
  obtain ⟨hoff, haddr⟩ := hinv
  simp only [Memory.AllocUnprotected]
  unfold Platform.sane at hpf
  split_ifs with h1 h2 h3
  · exact ⟨hoff, by simp⟩
  · have h1 : size ≤ pf.page_size := by simpa using h1
    have ha := haddr h2.1
    have hlt : m.offset + size < pf.word := by omega
    have hmod : (m.offset + size) % pf.word = m.offset + size := Nat.mod_eq_of_lt hlt
    simp only [hmod] at h2 ⊢
    refine ⟨h2.2, fun hp => ?_⟩
    have hne : m.address + m.offset ≠ pf.word := by
      intro he
      apply hp
      simp [he]
    have hlt2 : m.address + m.offset < pf.word := by omega
    rw [Nat.mod_eq_of_lt hlt2]
    omega
  · exact ⟨hoff, by simp⟩
  · have h1 : size ≤ pf.page_size := by simpa using h1
    exact ⟨h1, fun _ => ⟨le_refl _, by simp only; omega⟩⟩

/-- C2. A request larger than the page size fails: the result is null, `errno`
is set to `ENOMEM`, `mmap` is not called and the arena is left as it was. -/
theorem alloc_oversize_fails (pf : Platform) (mapped size : Nat) (m : Memory)
    (hsize : size > pf.page_size) :
    Memory.AllocUnprotected pf mapped size m =
      { ptr := 0, errno_assigned := some ENOMEM, mmap_called := false, st := m } := by
  simp [Memory.AllocUnprotected, hsize]

/-- C8. With a current page that cannot hold `size` more bytes (and
`size ≤ page_size`), the call maps a page: if the mapping succeeds the result
is the base of the new page, which becomes current with cursor `size`; if it
fails the result is null and the arena is unchanged. The sum `offset + size`
is taken in the integers and assumed to fit a `size_t`, as it does in every
reachable state. -/
theorem alloc_page_exhausted (pf : Platform) (mapped size : Nat) (m : Memory)
    (_hcur : m.address ≠ 0) (hsize : size ≤ pf.page_size)
    (hfull : m.offset + size > pf.page_size) (hfit : m.offset + size < pf.word) :
    (mapped ≠ MAP_FAILED pf →
      Memory.AllocUnprotected pf mapped size m =
        { ptr := mapped, errno_assigned := none, mmap_called := true,
          st := { address := mapped, offset := size } }) ∧
    (mapped = MAP_FAILED pf →
      Memory.AllocUnprotected pf mapped size m =
        { ptr := 0, errno_assigned := none, mmap_called := true, st := m }) := by
  have hmod : (m.offset + size) % pf.word = m.offset + size := Nat.mod_eq_of_lt hfit
  have h1 : ¬ size > pf.page_size := by omega
  have h2 : ¬ (m.address ≠ 0 ∧ (m.offset + size) % pf.word ≤ pf.page_size) := by
    rw [hmod]; omega
  constructor
  · intro h3
    simp only [Memory.AllocUnprotected, if_neg h1, if_neg h2, if_neg h3]
  · intro h3
    simp only [Memory.AllocUnprotected, if_neg h1, if_neg h2, if_pos h3]

/-! ### Disjointness of the allocations -/

theorem alloc_eq_oversize (pf : Platform) (mapped size : Nat) (m : Memory)
    (h1 : size > pf.page_size) :
    Memory.AllocUnprotected pf mapped size m =
      { ptr := 0, errno_assigned := some ENOMEM, mmap_called := false, st := m } := by
  simp [Memory.AllocUnprotected, h1]

theorem alloc_eq_bump (pf : Platform) (mapped size : Nat) (m : Memory)
    (h1 : ¬ size > pf.page_size)
    (h2 : m.address ≠ 0 ∧ (m.offset + size) % pf.word ≤ pf.page_size) :
    Memory.AllocUnprotected pf mapped size m =
      { ptr := (m.address + m.offset) % pf.word, errno_assigned := none, mmap_called := false,
        st := { address := m.address, offset := (m.offset + size) % pf.word } } := by
  simp only [Memory.AllocUnprotected, if_neg h1, if_pos h2]

theorem alloc_eq_failed (pf : Platform) (mapped size : Nat) (m : Memory)
    (h1 : ¬ size > pf.page_size)
    (h2 : ¬ (m.address ≠ 0 ∧ (m.offset + size) % pf.word ≤ pf.page_size))
    (h3 : mapped = MAP_FAILED pf) :
    Memory.AllocUnprotected pf mapped size m =
      { ptr := 0, errno_assigned := none, mmap_called := true, st := m } := by
  simp only [Memory.AllocUnprotected, if_neg h1, if_neg h2, if_pos h3]

theorem alloc_eq_mapped (pf : Platform) (mapped size : Nat) (m : Memory)
    (h1 : ¬ size > pf.page_size)
    (h2 : ¬ (m.address ≠ 0 ∧ (m.offset + size) % pf.word ≤ pf.page_size))
    (h3 : ¬ mapped = MAP_FAILED pf) :
    Memory.AllocUnprotected pf mapped size m =
      { ptr := mapped, errno_assigned := none, mmap_called := true,
        st := { address := mapped, offset := size } } := by
  simp only [Memory.AllocUnprotected, if_neg h1, if_neg h2, if_neg h3]

theorem hist_inv_initial (pf : Platform) : History.initial.inv pf where
  off := by simp [History.initial, Memory.initial]
  cur := by simp [History.initial, Memory.initial]
  inr := by simp [History.initial]
  pg := by simp [History.initial]
  own := by simp [History.initial]
  dis := by simp [History.initial]

theorem hist_inv_step (pf : Platform) (hpf : pf.sane) (c : Call) (h : History)
    (hfresh : (Memory.AllocUnprotected pf c.mapped c.size h.mem).mmap_called = true →
      c.mapped ≠ MAP_FAILED pf → fresh_page pf h.pages c.mapped)
    (hi : h.inv pf) : (h.step pf c).inv pf := by
  obtain ⟨off, cur, inr, pg, own, dis⟩ := hi
  unfold Platform.sane at hpf
  by_cases h1 : c.size > pf.page_size
  · have hr := alloc_eq_oversize pf c.mapped c.size h.mem h1
    have hs : h.step pf c = h := by
      simp [History.step, hr]
    rw [hs]
    exact ⟨off, cur, inr, pg, own, dis⟩
  by_cases h2 : h.mem.address ≠ 0 ∧ (h.mem.offset + c.size) % pf.word ≤ pf.page_size
  · have hr := alloc_eq_bump pf c.mapped c.size h.mem h1 h2
    have hsz : c.size ≤ pf.page_size := by omega
    have hmod : (h.mem.offset + c.size) % pf.word = h.mem.offset + c.size :=
      Nat.mod_eq_of_lt (by omega)
    rw [hmod] at hr h2
    have hin := inr _ (cur h2.1)
    by_cases hp : (h.mem.address + h.mem.offset) % pf.word = 0
    · have hs : h.step pf c =
          { mem := { address := h.mem.address, offset := h.mem.offset + c.size }
            pages := h.pages, allocs := h.allocs } := by
        simp [History.step, hr, hp]
      rw [hs]
      refine ⟨h2.2, cur, inr, pg, ?_, dis⟩
      intro a ha
      obtain ⟨q, hq, hq1, hq2, hq3⟩ := own a ha
      exact ⟨q, hq, hq1, hq2, fun e => by have := hq3 e; simp only; omega⟩
    · have hs : h.step pf c =
          { mem := { address := h.mem.address, offset := h.mem.offset + c.size }
            pages := h.pages
            allocs := ((h.mem.address + h.mem.offset) % pf.word, c.size) :: h.allocs } := by
        simp [History.step, hr, hp]
      have hlt : h.mem.address + h.mem.offset < pf.word := by
        rcases Nat.lt_or_ge (h.mem.address + h.mem.offset) pf.word with hl | hl
        · exact hl
        · exfalso
          apply hp
          have : h.mem.address + h.mem.offset = pf.word := by omega
          simp [this]
      rw [Nat.mod_eq_of_lt hlt] at hs
      rw [hs]
      refine ⟨h2.2, cur, inr, pg, ?_, ?_⟩
      · intro a ha
        rcases List.mem_cons.mp ha with rfl | ha
        · exact ⟨h.mem.address, cur h2.1, by simp only; omega, by simp only; omega,
            fun _ => by simp only; omega⟩
        · obtain ⟨q, hq, hq1, hq2, hq3⟩ := own a ha
          exact ⟨q, hq, hq1, hq2, fun e => by have := hq3 e; simp only; omega⟩
      · refine List.pairwise_cons.mpr ⟨?_, dis⟩
        intro a ha
        obtain ⟨q, hq, hq1, hq2, hq3⟩ := own a ha
        unfold ranges_disjoint
        by_cases e : q = h.mem.address
        · have := hq3 e
          simp only
          omega
        · have hd := pg q hq _ (cur h2.1) e
          unfold ranges_disjoint at hd
          simp only
          omega
  by_cases h3 : c.mapped = MAP_FAILED pf
  · have hr := alloc_eq_failed pf c.mapped c.size h.mem h1 h2 h3
    have hs : h.step pf c = h := by
      simp only [History.step, hr]
      simp [h3]
    rw [hs]
    exact ⟨off, cur, inr, pg, own, dis⟩
  · have hr := alloc_eq_mapped pf c.mapped c.size h.mem h1 h2 h3
    have hsz : c.size ≤ pf.page_size := by omega
    obtain ⟨hnz, hin, hdj⟩ := hfresh (by rw [hr]) h3
    have hs : h.step pf c =
        { mem := { address := c.mapped, offset := c.size }
          pages := c.mapped :: h.pages
          allocs := (c.mapped, c.size) :: h.allocs } := by
      simp [History.step, hr, h3, hnz]
    rw [hs]
    refine ⟨hsz, fun _ => List.mem_cons_self _ _, ?_, ?_, ?_, ?_⟩
    · intro q hq
      rcases List.mem_cons.mp hq with rfl | hq
      · exact hin
      · exact inr q hq
    · intro q hq q2 hq2 hne
      rcases List.mem_cons.mp hq with rfl | hq
      · rcases List.mem_cons.mp hq2 with rfl | hq2
        · exact absurd rfl hne
        · exact hdj q2 hq2
      · rcases List.mem_cons.mp hq2 with rfl | hq2
        · exact (hdj q hq).symm
        · exact pg q hq q2 hq2 hne
    · intro a ha
      rcases List.mem_cons.mp ha with rfl | ha
      · exact ⟨c.mapped, List.mem_cons_self _ _, le_refl _, by simp only; omega,
          fun _ => le_refl _⟩
      · obtain ⟨q, hq, hq1, hq2, _⟩ := own a ha
        refine ⟨q, List.mem_cons_of_mem _ hq, hq1, hq2, fun e => ?_⟩
        have e2 : q = c.mapped := e
        have hd := hdj q hq
        unfold ranges_disjoint at hd
        show a.1 + a.2 ≤ c.mapped + c.size
        omega
    · refine List.pairwise_cons.mpr ⟨?_, dis⟩
      intro a ha
      obtain ⟨q, hq, hq1, hq2, _⟩ := own a ha
      have hd := hdj q hq
      unfold ranges_disjoint at hd ⊢
      simp only
      omega

theorem hist_inv_run (pf : Platform) (hpf : pf.sane) (cs : List Call) (h : History)
    (hfresh : mmap_fresh pf cs h) (hi : h.inv pf) : (History.run pf cs h).inv pf := by
  induction cs generalizing h with
  | nil => exact hi
  | cons c cs ih =>
    obtain ⟨hc, hrest⟩ := hfresh
    exact ih (h.step pf c) hrest (hist_inv_step pf hpf c h hc hi)

/-- C10. From the initial arena, when every successful `mmap` returns a fresh
page (not null, inside the address space, disjoint from all pages mapped
before), the byte ranges of any two non-null results are disjoint, and the
cursor sum `offset + size` of any further accepted request fits a `size_t`. -/
theorem allocations_disjoint (pf : Platform) (hpf : pf.sane) (cs : List Call)
    (hfresh : mmap_fresh pf cs History.initial) :
    (History.run pf cs History.initial).allocs.Pairwise
        (fun a b => ranges_disjoint a.1 a.2 b.1 b.2) ∧
    ∀ size : Nat, size ≤ pf.page_size →
      (History.run pf cs History.initial).mem.offset + size < pf.word := by
  have hi := hist_inv_run pf hpf cs History.initial hfresh (hist_inv_initial pf)
  refine ⟨hi.dis, fun size hsize => ?_⟩
  have := hi.off
  unfold Platform.sane at hpf
  omega

/-! ## Properties of the hook installer -/

theorem token_discipline_sound (held : Bool) (tr : List Event)
    (hd : pause_discipline held tr = true) (pre : List Event) (e : Event) (post : List Event)
    (htr : tr = pre ++ e :: post) (he : e.needs_pause = true ∨ e = Event.ResumeVM) :
    token_held_from held pre = true := by
  induction pre generalizing held tr with
  | nil =>
    subst htr
    rcases he with he | he
    · cases e <;> simp_all [pause_discipline, token_held_from, Event.needs_pause]
    · subst he
      simp_all [pause_discipline, token_held_from]
  | cons x pre ih =>
    subst htr
    cases x <;>
      simp only [List.cons_append, pause_discipline, token_held_from, Bool.and_eq_true] at hd ⊢ <;>
      exact ih _ _ hd.2 rfl

theorem hook_trace_cases (rt : Runtime) (rq : HookRequest) :
    pause_discipline false (Pine_hook0 rt rq).trace = true ∧
    (Pine_hook0 rt rq).trace.count Event.SuspendVM ≤ 1 ∧
    (Pine_hook0 rt rq).trace.count Event.ResumeVM =
      (Pine_hook0 rt rq).trace.count Event.SuspendVM ∧
    token_held (Pine_hook0 rt rq).trace = false := by
  obtain ⟨dbg, mirror, cannot, exc, dec, nb, ne, io, ro, rf⟩ := rt
  obtain ⟨th, tg, br, inl, nat⟩ := rq
  cases inl <;> cases cannot <;> cases mirror <;> cases exc <;>
    simp [Pine_hook0, Pine_hook0_install, ScopedSuspendVM, ThrowNewException, pause_discipline, token_held,
      token_held_from, Event.needs_pause] <;>
    split_ifs <;>
    simp [pause_discipline, token_held_from, Event.needs_pause]

/-- C4. On every path through `Pine_hook0` the pause token is acquired at most
once, released as many times as acquired and only while held, and not held
at the return; every call to an install function, to `BackupFrom` and to
`AfterHook` is made while the token is held. -/
theorem pause_token_scoped (rt : Runtime) (rq : HookRequest) :
    (Pine_hook0 rt rq).trace.count Event.SuspendVM ≤ 1 ∧
    (Pine_hook0 rt rq).trace.count Event.ResumeVM =
      (Pine_hook0 rt rq).trace.count Event.SuspendVM ∧
    token_held (Pine_hook0 rt rq).trace = false ∧
    (∀ pre post : List Event, (Pine_hook0 rt rq).trace = pre ++ Event.ResumeVM :: post →
      token_held pre = true) ∧
    (∀ (pre : List Event) (e : Event) (post : List Event),
      (Pine_hook0 rt rq).trace = pre ++ e :: post → e.needs_pause = true →
      token_held pre = true) := by
  obtain ⟨hd, hc, he, hh⟩ := hook_trace_cases rt rq
  refine ⟨hc, he, hh, ?_, ?_⟩
  · intro pre post htr
    exact token_discipline_sound false _ hd pre _ post htr (Or.inr rfl)
  · intro pre e post htr hn
    exact token_discipline_sound false _ hd pre e post htr (Or.inl hn)

set_option maxHeartbeats 2000000 in
/-- C3. When `CannotSafeInlineHook(target)` is true the installer never uses
inline mode, whatever `isInlineHook` is: `InstallInlineTrampoline` is not
called, the only install call is `InstallReplacementTrampoline(target,
bridge)`, which is made whenever the backup descriptor was obtained, and the
mode flag handed to `BackupFrom` and `AfterHook` is false. -/
theorem unsafe_inline_forces_replacement (rt : Runtime) (rq : HookRequest)
    (hcannot : rt.cannot_safe_inline = true) :
    (∀ t b : Nat, Event.InstallInlineTrampoline t b ∉ (Pine_hook0 rt rq).trace) ∧
    (∀ e ∈ (Pine_hook0 rt rq).trace, e.is_install = true →
      e = Event.InstallReplacementTrampoline rq.target rq.bridge) ∧
    (¬ rt.backup_alloc_failed →
      (Pine_hook0 rt rq).trace.count
        (Event.InstallReplacementTrampoline rq.target rq.bridge) = 1) ∧
    (∀ (b t c : Nat) (f n : Bool),
      Event.BackupFrom b t c f n ∈ (Pine_hook0 rt rq).trace → f = false) ∧
    (∀ (t : Nat) (f d n : Bool),
      Event.AfterHook t f d n ∈ (Pine_hook0 rt rq).trace → f = false) := by
  obtain ⟨dbg, mirror, cannot, exc, dec, nb, ne, io, ro, rf⟩ := rt
  obtain ⟨th, tg, br, inl, nat⟩ := rq
  simp only at hcannot
  subst hcannot
  cases inl <;> cases mirror <;> cases exc <;>
    simp [Pine_hook0, Pine_hook0_install, ScopedSuspendVM, ThrowNewException, Runtime.backup_alloc_failed,
      Event.is_install] <;>
    split_ifs <;>
    simp_all [Event.is_install, List.count_cons]

set_option maxHeartbeats 2000000 in
/-- C5. A failing request signals failure and commits nothing. If the backup
descriptor cannot be allocated, no install function is called, the pause
token is not acquired, the result is null and an exception is pending
(on the `ArtMethod::New()` path: `OutOfMemoryError` if `errno` was `ENOMEM`,
`RuntimeException` otherwise). If the install function that is called
returns null, neither `BackupFrom` nor `AfterHook` is called, the result is
null and a `RuntimeException` is pending. -/
theorem failed_hook_commits_nothing (rt : Runtime) (rq : HookRequest) :
    (rt.backup_alloc_failed →
      (∀ e ∈ (Pine_hook0 rt rq).trace, e.is_install = false) ∧
      Event.SuspendVM ∉ (Pine_hook0 rt rq).trace ∧
      (Pine_hook0 rt rq).ret = 0 ∧
      (Pine_hook0 rt rq).pending_exception.isSome = true ∧
      (rt.mirror_class = false →
        (Pine_hook0 rt rq).pending_exception =
          some (if rt.new_errno = ENOMEM then "java/lang/OutOfMemoryError"
                else "java/lang/RuntimeException"))) ∧
    (((Event.InstallInlineTrampoline rq.target rq.bridge ∈ (Pine_hook0 rt rq).trace ∧
          rt.inline_origin = 0) ∨
        (Event.InstallReplacementTrampoline rq.target rq.bridge ∈ (Pine_hook0 rt rq).trace ∧
          rt.replacement_origin = 0)) →
      (∀ e ∈ (Pine_hook0 rt rq).trace, e.commits = false) ∧
      (Pine_hook0 rt rq).ret = 0 ∧
      (Pine_hook0 rt rq).pending_exception = some "java/lang/RuntimeException") := by
  obtain ⟨dbg, mirror, cannot, exc, dec, nb, ne, io, ro, rf⟩ := rt
  obtain ⟨th, tg, br, inl, nat⟩ := rq
  constructor
  · intro h
    cases inl <;> cases cannot <;> cases mirror <;> cases exc <;>
      simp [Pine_hook0, Pine_hook0_install, ScopedSuspendVM, ThrowNewException, Runtime.backup_alloc_failed]
        at h ⊢ <;>
      (try split_ifs) <;>
      simp_all [Event.is_install]
  · intro h
    cases inl <;> cases cannot <;> cases mirror <;> cases exc <;>
      simp [Pine_hook0, Pine_hook0_install, ScopedSuspendVM, ThrowNewException] at h ⊢ <;>
      (try split_ifs at h ⊢) <;>
      simp_all [Event.commits]

theorem suspend_iff_backup_allocated (rt : Runtime) (rq : HookRequest) :
    Event.SuspendVM ∈ (Pine_hook0 rt rq).trace ↔ ¬ rt.backup_alloc_failed := by
  obtain ⟨dbg, mirror, cannot, exc, dec, nb, ne, io, ro, rf⟩ := rt
  obtain ⟨th, tg, br, inl, nat⟩ := rq
  cases inl <;> cases cannot <;> cases mirror <;> cases exc <;>
    simp [Pine_hook0, Pine_hook0_install, ScopedSuspendVM, ThrowNewException, Runtime.backup_alloc_failed] <;>
    (try split_ifs) <;>
    simp_all

theorem install_iff_backup_allocated (rt : Runtime) (rq : HookRequest) :
    (∃ e ∈ (Pine_hook0 rt rq).trace, e.is_install = true) ↔ ¬ rt.backup_alloc_failed := by
  obtain ⟨dbg, mirror, cannot, exc, dec, nb, ne, io, ro, rf⟩ := rt
  obtain ⟨th, tg, br, inl, nat⟩ := rq
  cases inl <;> cases cannot <;> cases mirror <;> cases exc <;>
    simp [Pine_hook0, Pine_hook0_install, ScopedSuspendVM, ThrowNewException, Runtime.backup_alloc_failed] <;>
    (try split_ifs) <;>
    simp_all [Event.is_install]

set_option maxHeartbeats 1000000 in
theorem install_on_request_methods (rt : Runtime) (rq : HookRequest) :
    ∀ e ∈ (Pine_hook0 rt rq).trace, e.is_install = true →
      e = Event.InstallInlineTrampoline rq.target rq.bridge ∨
      e = Event.InstallReplacementTrampoline rq.target rq.bridge := by
  obtain ⟨dbg, mirror, cannot, exc, dec, nb, ne, io, ro, rf⟩ := rt
  obtain ⟨th, tg, br, inl, nat⟩ := rq
  cases inl <;> cases cannot <;> cases mirror <;> cases exc <;>
    simp [Pine_hook0, Pine_hook0_install, ScopedSuspendVM, ThrowNewException] <;>
    (try split_ifs) <;>
    simp_all [Event.is_install]

theorem rejected_when_backup_fails (rt : Runtime) (rq : HookRequest)
    (hfail : rt.backup_alloc_failed) :
    (Pine_hook0 rt rq).ret = 0 ∧ (Pine_hook0 rt rq).pending_exception.isSome = true := by
  obtain ⟨dbg, mirror, cannot, exc, dec, nb, ne, io, ro, rf⟩ := rt
  obtain ⟨th, tg, br, inl, nat⟩ := rq
  cases inl <;> cases cannot <;> cases mirror <;> cases exc <;>
    simp [Pine_hook0, Pine_hook0_install, ScopedSuspendVM, ThrowNewException,
      Runtime.backup_alloc_failed] at hfail ⊢ <;>
    (try split_ifs) <;>
    simp_all

/-- C9, as the code has it. `Pine_hook0` does not look at whether `target` and
`bridge` are distinct: for resolved references, equal or not, the request is
stopped before the pause token is acquired and before any install function
is called exactly when the backup descriptor cannot be allocated, and is then
answered with null and a pending exception; otherwise the token is acquired
and an install function is called, on `(target, bridge)`. -/
theorem hook_performs_no_reference_check (rt : Runtime) (rq : HookRequest)
    (_htarget : rq.target ≠ 0) (_hbridge : rq.bridge ≠ 0) :
    (Event.SuspendVM ∈ (Pine_hook0 rt rq).trace ↔ ¬ rt.backup_alloc_failed) ∧
    ((∃ e ∈ (Pine_hook0 rt rq).trace, e.is_install = true) ↔ ¬ rt.backup_alloc_failed) ∧
    (rt.backup_alloc_failed →
      (Pine_hook0 rt rq).ret = 0 ∧ (Pine_hook0 rt rq).pending_exception.isSome = true) ∧
    (∀ e ∈ (Pine_hook0 rt rq).trace, e.is_install = true →
      e = Event.InstallInlineTrampoline rq.target rq.bridge ∨
      e = Event.InstallReplacementTrampoline rq.target rq.bridge) :=
  ⟨suspend_iff_backup_allocated rt rq, install_iff_backup_allocated rt rq,
    rejected_when_backup_fails rt rq, install_on_request_methods rt rq⟩

/-- C9 fails on the code: a request with `target = bridge` is not rejected;
the pause token is acquired, the replacement trampoline is installed on the
method itself, and the request succeeds. -/
theorem same_method_request_is_installed :
    same_method_request.target = same_method_request.bridge ∧
    Event.SuspendVM ∈ (Pine_hook0 obliging_runtime same_method_request).trace ∧
    Event.InstallReplacementTrampoline 0x1000 0x1000 ∈
      (Pine_hook0 obliging_runtime same_method_request).trace ∧
    (Pine_hook0 obliging_runtime same_method_request).ret = 0x5000 ∧
    (Pine_hook0 obliging_runtime same_method_request).pending_exception = none := by
  decide

/-! ## Properties of the argument capture -/

theorem foldl_set_pair (mem addr : Nat → Nat) (l : List Nat) (a rd : List Nat) :
    l.foldl (fun acc i => (acc.1.set i (mem (addr i)), acc.2 ++ [addr i])) (a, rd) =
      (l.foldl (fun b i => b.set i (mem (addr i))) a, rd ++ l.map addr) := by
  induction l generalizing a rd with
  | nil => simp
  | cons x l ih => simp [List.foldl_cons, ih]

theorem foldl_set_length (g : Nat → Nat) (l : List Nat) (a : List Nat) :
    (l.foldl (fun b i => b.set i (g i)) a).length = a.length := by
  induction l generalizing a with
  | nil => rfl
  | cons x l ih => simp [List.foldl_cons, ih]

theorem foldl_set_getElem? (g : Nat → Nat) (l : List Nat) (a : List Nat) (j : Nat) :
    (l.foldl (fun b i => b.set i (g i)) a)[j]? =
      if j ∈ l ∧ j < a.length then some (g j) else a[j]? := by
  induction l generalizing a with
  | nil => simp
  | cons x l ih =>
    rw [List.foldl_cons, ih, List.length_set, List.getElem?_set]
    by_cases hjl : j ∈ l
    · by_cases hlt : j < a.length
      · simp [hjl, hlt]
      · have : a[j]? = none := by simp; omega
        by_cases hx : x = j
        · subst hx; simp [hjl, hlt]; omega
        · simp [hjl, hlt, hx, this]
    · by_cases hx : x = j
      · subst hx
        by_cases hlt : x < a.length
        · simp [hjl, hlt]
        · simp [hjl, hlt]; omega
      · have hx2 : ¬ j = x := fun e => hx e.symm
        simp [hjl, hx, hx2]

theorem read_stack_args_eq (mem addr : Nat → Nat) (first length : Nat) (array : List Nat) :
    read_stack_args mem addr first length array =
      ((List.range' first (length - first)).foldl (fun b i => b.set i (mem (addr i))) array,
        (List.range' first (length - first)).map addr) := by
  simp [read_stack_args, foldl_set_pair]

theorem read_stack_args_length (mem addr : Nat → Nat) (first length : Nat) (array : List Nat) :
    (read_stack_args mem addr first length array).1.length = array.length := by
  simp [read_stack_args_eq, foldl_set_length]

theorem read_stack_args_below (mem addr : Nat → Nat) (first length : Nat) (array : List Nat)
    (j : Nat) (hj : j < first) :
    (read_stack_args mem addr first length array).1[j]? = array[j]? := by
  rw [read_stack_args_eq]
  simp only [foldl_set_getElem?, List.mem_range'_1]
  rw [if_neg]
  omega

theorem read_stack_args_at (mem addr : Nat → Nat) (first : Nat) (array : List Nat)
    (j : Nat) (hj : first ≤ j) (hlen : j < array.length) :
    (read_stack_args mem addr first array.length array).1[j]? = some (mem (addr j)) := by
  rw [read_stack_args_eq]
  simp only [foldl_set_getElem?, List.mem_range'_1]
  rw [if_pos]
  omega

theorem stack_arg_addr64_exact (sp i : Nat) (hi : i < 2 ^ 28) (hsp : sp + 8 + 8 * i < 2 ^ 64) :
    stack_arg_addr64 sp i = sp + 8 + 8 * i := by
  have h1 : 8 * i % 2 ^ 32 = 8 * i := Nat.mod_eq_of_lt (by omega)
  have h2 : 8 * i < 2 ^ 31 := by omega
  simp only [stack_arg_addr64, sign_extend_32, h1, if_pos h2]
  exact Nat.mod_eq_of_lt hsp

theorem stack_arg_addr32_exact (sp i : Nat) (hsp : sp + 4 + 4 * i < 2 ^ 32) :
    stack_arg_addr32 sp i = sp + 4 + 4 * i := by
  simp only [stack_arg_addr32]
  exact Nat.mod_eq_of_lt hsp

theorem getArgs64_long (extras : Extras) (mem : Nat → Nat) (javaArray : List Nat) (sp : Nat)
    (hlen : 8 ≤ javaArray.length) :
    Pine_getArgs64 extras mem true javaArray sp =
      some ⟨(read_stack_args mem (stack_arg_addr64 sp) 7 javaArray.length
              (((javaArray.set 0 extras.r1).set 1 extras.r2).set 2 extras.r3)).1,
            (read_stack_args mem (stack_arg_addr64 sp) 7 javaArray.length
              (((javaArray.set 0 extras.r1).set 1 extras.r2).set 2 extras.r3)).2, true⟩ := by
  have h0 : javaArray.length > 0 := by omega
  have h1 : ¬ javaArray.length = 1 := by omega
  have h2 : ¬ javaArray.length = 2 := by omega
  have h8 : ¬ javaArray.length < 8 := by omega
  simp [Pine_getArgs64, h0, h1, h2, h8]

theorem getArgs32_long (extras : Extras) (mem : Nat → Nat) (javaArray : List Nat) (sp : Nat)
    (skipR1 : Bool) (hlen : 4 ≤ javaArray.length) :
    Pine_getArgs32 extras mem true javaArray sp skipR1 =
      some ⟨(read_stack_args mem (stack_arg_addr32 sp) 3 javaArray.length
              (getArgs32_registers extras mem javaArray sp skipR1).1).1,
            (getArgs32_registers extras mem javaArray sp skipR1).2.1 ++
              (read_stack_args mem (stack_arg_addr32 sp) 3 javaArray.length
                (getArgs32_registers extras mem javaArray sp skipR1).1).2, true⟩ := by
  have h0 : javaArray.length > 0 := by omega
  have h1 : ¬ javaArray.length = 1 := by omega
  have h2 : ¬ javaArray.length = 2 := by omega
  have h3 : ¬ javaArray.length = 3 := by omega
  cases skipR1 <;> simp [Pine_getArgs32, getArgs32_registers, h0, h1, h2, h3]

theorem getArgs32_three (extras : Extras) (mem : Nat → Nat) (javaArray : List Nat) (sp : Nat)
    (skipR1 : Bool) (hlen : javaArray.length = 3) :
    Pine_getArgs32 extras mem true javaArray sp skipR1 =
      some ⟨(getArgs32_registers extras mem javaArray sp skipR1).1,
            (getArgs32_registers extras mem javaArray sp skipR1).2.1, true⟩ := by
  cases skipR1 <;> simp [Pine_getArgs32, getArgs32_registers, hlen]

theorem getArgs32_registers_long (extras : Extras) (mem : Nat → Nat) (javaArray : List Nat)
    (sp : Nat) (skipR1 : Bool) (hlen : 3 ≤ javaArray.length) :
    getArgs32_registers extras mem javaArray sp skipR1 =
      if skipR1 = true then
        (((javaArray.set 0 extras.r2).set 1 extras.r3).set 2 (mem ((sp + 12) % 2 ^ 32)),
          [(sp + 12) % 2 ^ 32], false)
      else
        (((javaArray.set 0 extras.r1).set 1 extras.r2).set 2 extras.r3, [], false) := by
  have h1 : ¬ javaArray.length = 1 := by omega
  have h2 : ¬ javaArray.length = 2 := by omega
  cases skipR1 <;> simp [getArgs32_registers, h1, h2]

theorem getArgs32_some (extras : Extras) (mem : Nat → Nat) (javaArray : List Nat) (sp : Nat)
    (skipR1 : Bool) (hlen : 3 ≤ javaArray.length) :
    Pine_getArgs32 extras mem true javaArray sp skipR1 =
      some ⟨(read_stack_args mem (stack_arg_addr32 sp) 3 javaArray.length
              (getArgs32_registers extras mem javaArray sp skipR1).1).1,
            (getArgs32_registers extras mem javaArray sp skipR1).2.1 ++
              (read_stack_args mem (stack_arg_addr32 sp) 3 javaArray.length
                (getArgs32_registers extras mem javaArray sp skipR1).1).2, true⟩ := by
  rcases Nat.eq_or_lt_of_le hlen with h3 | h4
  · rw [getArgs32_three extras mem javaArray sp skipR1 h3.symm]
    simp [read_stack_args, ← h3]
  · exact getArgs32_long extras mem javaArray sp skipR1 h4

/-- C7. When the array is long enough for stack reads, the words the capture
writes are the saved registers followed by the words of the frame at their
fixed offsets. 64-bit variant, length at least 8: words 0, 1, 2 are `r1`,
`r2`, `r3`, words 3 to 6 are left as they were, and word `i` for
`7 ≤ i < length` is the word at `sp + 8 + 8 * i`. 32-bit variant, length at
least 3: words 0, 1, 2 are `r1`, `r2`, `r3`, or with the skip-r1 flag `r2`,
`r3` and the word at `sp + 12`, and word `i` for `3 ≤ i < length` is the word
at `sp + 4 + 4 * i`. The addresses are those the machine computes; they are
the plain sums whenever these do not overflow. -/
theorem stack_words_are_frame_reads (extras : Extras) (mem : Nat → Nat) (sp : Nat) :
    (∀ javaArray : List Nat, 8 ≤ javaArray.length →
      ∃ r, Pine_getArgs64 extras mem true javaArray sp = some r ∧
        r.array.length = javaArray.length ∧
        r.array[0]? = some extras.r1 ∧ r.array[1]? = some extras.r2 ∧
        r.array[2]? = some extras.r3 ∧
        (∀ i, 3 ≤ i → i < 7 → r.array[i]? = javaArray[i]?) ∧
        (∀ i, 7 ≤ i → i < javaArray.length →
          r.array[i]? = some (mem (stack_arg_addr64 sp i))) ∧
        r.stack_reads = (List.range' 7 (javaArray.length - 7)).map (stack_arg_addr64 sp)) ∧
    (∀ (javaArray : List Nat) (skipR1 : Bool), 3 ≤ javaArray.length →
      ∃ r, Pine_getArgs32 extras mem true javaArray sp skipR1 = some r ∧
        r.array.length = javaArray.length ∧
        (skipR1 = false →
          r.array[0]? = some extras.r1 ∧ r.array[1]? = some extras.r2 ∧
          r.array[2]? = some extras.r3) ∧
        (skipR1 = true →
          r.array[0]? = some extras.r2 ∧ r.array[1]? = some extras.r3 ∧
          r.array[2]? = some (mem ((sp + 12) % 2 ^ 32))) ∧
        (∀ i, 3 ≤ i → i < javaArray.length →
          r.array[i]? = some (mem (stack_arg_addr32 sp i)))) ∧
    (∀ i, i < 2 ^ 28 → sp + 8 + 8 * i < 2 ^ 64 → stack_arg_addr64 sp i = sp + 8 + 8 * i) ∧
    (∀ i, sp + 4 + 4 * i < 2 ^ 32 → stack_arg_addr32 sp i = sp + 4 + 4 * i) ∧
    (sp + 12 < 2 ^ 32 → (sp + 12) % 2 ^ 32 = sp + 12) := by
  refine ⟨?_, ?_, fun i hi hsp => stack_arg_addr64_exact sp i hi hsp,
    fun i hsp => stack_arg_addr32_exact sp i hsp, fun h => Nat.mod_eq_of_lt h⟩
  · intro javaArray hlen
    refine ⟨_, getArgs64_long extras mem javaArray sp hlen, ?_, ?_, ?_, ?_, ?_, ?_, ?_⟩
    · simp [read_stack_args_length]
    · rw [read_stack_args_below _ _ _ _ _ 0 (by omega)]
      have hne : javaArray ≠ [] := List.ne_nil_of_length_pos (by omega)
      simp [List.getElem?_set, hne]
    · rw [read_stack_args_below _ _ _ _ _ 1 (by omega)]
      simp [List.getElem?_set]; omega
    · rw [read_stack_args_below _ _ _ _ _ 2 (by omega)]
      simp [List.getElem?_set]; omega
    · intro i h3 h7
      rw [read_stack_args_below _ _ _ _ _ i h7]
      have e0 : ¬ 0 = i := by omega
      have e1 : ¬ 1 = i := by omega
      have e2 : ¬ 2 = i := by omega
      simp [List.getElem?_set, e0, e1, e2]
    · intro i h7 hi
      have hl : javaArray.length =
          (((javaArray.set 0 extras.r1).set 1 extras.r2).set 2 extras.r3).length := by simp
      have := read_stack_args_at mem (stack_arg_addr64 sp) 7
        (((javaArray.set 0 extras.r1).set 1 extras.r2).set 2 extras.r3) i h7 (by simpa using hi)
      rw [← hl] at this
      exact this
    · simp [read_stack_args_eq]
  · intro javaArray skipR1 hlen
    refine ⟨_, getArgs32_some extras mem javaArray sp skipR1 hlen, ?_, ?_, ?_, ?_⟩
    · rw [getArgs32_registers_long extras mem javaArray sp skipR1 hlen]
      cases skipR1 <;> simp [read_stack_args_length]
    · intro hs
      subst hs
      rw [getArgs32_registers_long extras mem javaArray sp false hlen]
      simp only [Bool.false_eq_true, if_false]
      refine ⟨?_, ?_, ?_⟩
      · rw [read_stack_args_below _ _ _ _ _ 0 (by omega)]
        have hne : javaArray ≠ [] := List.ne_nil_of_length_pos (by omega)
        simp [List.getElem?_set, hne]
      · rw [read_stack_args_below _ _ _ _ _ 1 (by omega)]
        simp [List.getElem?_set]; omega
      · rw [read_stack_args_below _ _ _ _ _ 2 (by omega)]
        simp [List.getElem?_set]; omega
    · intro hs
      subst hs
      rw [getArgs32_registers_long extras mem javaArray sp true hlen]
      simp only [if_true]
      refine ⟨?_, ?_, ?_⟩
      · rw [read_stack_args_below _ _ _ _ _ 0 (by omega)]
        have hne : javaArray ≠ [] := List.ne_nil_of_length_pos (by omega)
        simp [List.getElem?_set, hne]
      · rw [read_stack_args_below _ _ _ _ _ 1 (by omega)]
        simp [List.getElem?_set]; omega
      · rw [read_stack_args_below _ _ _ _ _ 2 (by omega)]
        simp [List.getElem?_set]; omega
    · intro i h3 hi
      have hl : javaArray.length =
          (getArgs32_registers extras mem javaArray sp skipR1).1.length := by
        rw [getArgs32_registers_long extras mem javaArray sp skipR1 hlen]
        cases skipR1 <;> simp
      have := read_stack_args_at mem (stack_arg_addr32 sp) 3
        (getArgs32_registers extras mem javaArray sp skipR1).1 i h3 (by rw [← hl]; exact hi)
      rw [← hl] at this
      exact this

/-- C6 fails on the code: with the skip-r1 flag set, a capture of length 1
returns `r2`, not `r1`. -/
theorem capture_one_skip_r1_returns_r2 :
    (Pine_getArgs32 ⟨1, 2, 3⟩ (fun _ => 0) true [0] 0 true).map ArgsResult.array = some [2] ∧
    (Pine_getArgs32 ⟨1, 2, 3⟩ (fun _ => 0) true [0] 0 true).map ArgsResult.array ≠
      some [(⟨1, 2, 3⟩ : Extras).r1] := by
  decide

/-- C6, as the code has it. A capture into an array of length 1 reads nothing
from the stack and returns one word: `r1` in the 64-bit variant and in the
32-bit variant without the skip-r1 flag, `r2` in the 32-bit variant with the
flag set. -/
theorem capture_one_word (extras : Extras) (mem : Nat → Nat) (javaArray : List Nat) (sp : Nat)
    (hlen : javaArray.length = 1) :
    Pine_getArgs64 extras mem true javaArray sp = some ⟨[extras.r1], [], true⟩ ∧
    Pine_getArgs32 extras mem true javaArray sp false = some ⟨[extras.r1], [], true⟩ ∧
    Pine_getArgs32 extras mem true javaArray sp true = some ⟨[extras.r2], [], true⟩ := by
  obtain ⟨x, rfl⟩ := List.length_eq_one.mp hlen
  simp [Pine_getArgs64, Pine_getArgs32, getArgs32_registers]


/-! ## The properties on the sample inputs -/

/-- Witness of C1 on the sample calls, followed by a request of 100 bytes
that is served from the page at `0x9000`. -/
theorem arena_alloc_within_page_witness :
    sample_platform.sane ∧ (∀ c ∈ sample_calls, c.ok sample_platform) ∧
    (Memory.AllocUnprotected sample_platform 0xd000 100
      (run sample_platform sample_calls Memory.initial)).ptr = 0x9030 ∧
    (run sample_platform sample_calls Memory.initial).offset ≤ sample_platform.page_size ∧
    (Memory.AllocUnprotected sample_platform 0xd000 100
      (run sample_platform sample_calls Memory.initial)).st.offset ≤
        sample_platform.page_size ∧
    (Memory.AllocUnprotected sample_platform 0xd000 100
      (run sample_platform sample_calls Memory.initial)).st.address ≤
      (Memory.AllocUnprotected sample_platform 0xd000 100
        (run sample_platform sample_calls Memory.initial)).ptr ∧
    (Memory.AllocUnprotected sample_platform 0xd000 100
      (run sample_platform sample_calls Memory.initial)).ptr + 100 ≤
      (Memory.AllocUnprotected sample_platform 0xd000 100
        (run sample_platform sample_calls Memory.initial)).st.address +
          sample_platform.page_size :=
  ⟨by decide, by decide, by decide,
    (arena_alloc_within_page sample_platform (by decide) sample_calls (by decide)).1,
    ((arena_alloc_within_page sample_platform (by decide) sample_calls (by decide)).2
      0xd000 100).1,
    ((arena_alloc_within_page sample_platform (by decide) sample_calls (by decide)).2
      0xd000 100).2 (by decide)⟩

/-- Witness of C2: 5000 bytes asked of an arena with 4096-byte pages. -/
theorem alloc_oversize_fails_witness :
    5000 > sample_platform.page_size ∧
    Memory.AllocUnprotected sample_platform 0xb000 5000 nearly_full_page =
      { ptr := 0, errno_assigned := some ENOMEM, mmap_called := false,
        st := nearly_full_page } :=
  ⟨by decide, alloc_oversize_fails sample_platform 0xb000 5000 nearly_full_page (by decide)⟩

/-- Witness of C8: 10 bytes free, 16 requested, the kernel maps `0x9000`. -/
theorem alloc_page_exhausted_witness :
    nearly_full_page.address ≠ 0 ∧ 16 ≤ sample_platform.page_size ∧
    nearly_full_page.offset + 16 > sample_platform.page_size ∧
    nearly_full_page.offset + 16 < sample_platform.word ∧
    0x9000 ≠ MAP_FAILED sample_platform ∧
    Memory.AllocUnprotected sample_platform 0x9000 16 nearly_full_page =
      { ptr := 0x9000, errno_assigned := none, mmap_called := true,
        st := { address := 0x9000, offset := 16 } } :=
  ⟨by decide, by decide, by decide, by decide, by decide,
    (alloc_page_exhausted sample_platform 0x9000 16 nearly_full_page
      (by decide) (by decide) (by decide) (by decide)).1 (by decide)⟩

/-- Witness of C10 on the sample calls, whose pages are fresh. -/
theorem allocations_disjoint_witness :
    sample_platform.sane ∧ mmap_fresh sample_platform sample_calls History.initial ∧
    (History.run sample_platform sample_calls History.initial).allocs =
      [(0x9010, 32), (0x9000, 16), (0x7000, 4086)] ∧
    (History.run sample_platform sample_calls History.initial).allocs.Pairwise
      (fun a b => ranges_disjoint a.1 a.2 b.1 b.2) ∧
    (History.run sample_platform sample_calls History.initial).mem.offset + 4096 <
      sample_platform.word :=
  ⟨by decide, by decide, by decide,
    (allocations_disjoint sample_platform (by decide) sample_calls (by decide)).1,
    (allocations_disjoint sample_platform (by decide) sample_calls (by decide)).2 4096
      (by decide)⟩

/-- Witness of C3: an inline request against a target judged unsafe. -/
theorem unsafe_inline_forces_replacement_witness :
    unsafe_inline_runtime.cannot_safe_inline = true ∧ inline_request.isInlineHook = true ∧
    ¬ unsafe_inline_runtime.backup_alloc_failed ∧
    (∀ t b : Nat, Event.InstallInlineTrampoline t b ∉
      (Pine_hook0 unsafe_inline_runtime inline_request).trace) ∧
    (Pine_hook0 unsafe_inline_runtime inline_request).trace.count
      (Event.InstallReplacementTrampoline inline_request.target inline_request.bridge) = 1 :=
  ⟨by decide, by decide, by decide,
    (unsafe_inline_forces_replacement unsafe_inline_runtime inline_request (by decide)).1,
    (unsafe_inline_forces_replacement unsafe_inline_runtime inline_request (by decide)).2.2.1
      (by decide)⟩

/-- Witness of C5: the backup descriptor cannot be allocated for lack of
memory. -/
theorem failed_hook_commits_nothing_witness :
    out_of_memory_runtime.backup_alloc_failed ∧ out_of_memory_runtime.mirror_class = false ∧
    Event.SuspendVM ∉ (Pine_hook0 out_of_memory_runtime inline_request).trace ∧
    (Pine_hook0 out_of_memory_runtime inline_request).ret = 0 ∧
    (Pine_hook0 out_of_memory_runtime inline_request).pending_exception =
      some (if out_of_memory_runtime.new_errno = ENOMEM then "java/lang/OutOfMemoryError"
            else "java/lang/RuntimeException") :=
  ⟨by decide, by decide,
    ((failed_hook_commits_nothing out_of_memory_runtime inline_request).1 (by decide)).2.1,
    ((failed_hook_commits_nothing out_of_memory_runtime inline_request).1 (by decide)).2.2.1,
    ((failed_hook_commits_nothing out_of_memory_runtime inline_request).1
      (by decide)).2.2.2.2 (by decide)⟩

/-- Witness of the amended C9 on the request whose target is its own
replacement. -/
theorem hook_performs_no_reference_check_witness :
    same_method_request.target ≠ 0 ∧ same_method_request.bridge ≠ 0 ∧
    (Event.SuspendVM ∈ (Pine_hook0 obliging_runtime same_method_request).trace ↔
      ¬ obliging_runtime.backup_alloc_failed) :=
  ⟨by decide, by decide,
    (hook_performs_no_reference_check obliging_runtime same_method_request
      (by decide) (by decide)).1⟩

/-- Witness of the amended C6 on a one-word array. -/
theorem capture_one_word_witness :
    [0].length = 1 ∧
    Pine_getArgs64 sample_extras sample_stack true [0] 1000 =
      some ⟨[sample_extras.r1], [], true⟩ ∧
    Pine_getArgs32 sample_extras sample_stack true [0] 1000 false =
      some ⟨[sample_extras.r1], [], true⟩ ∧
    Pine_getArgs32 sample_extras sample_stack true [0] 1000 true =
      some ⟨[sample_extras.r2], [], true⟩ :=
  ⟨rfl, capture_one_word sample_extras sample_stack [0] 1000 rfl⟩

/-- Witness of C7: nine words in the 64-bit variant, five in the 32-bit
variant with the skip-r1 flag; the stack words are those at `1064`, `1072`
and at `1016`, `1020`. -/
theorem stack_words_are_frame_reads_witness :
    8 ≤ (List.replicate 9 0).length ∧ 3 ≤ (List.replicate 5 0).length ∧
    Pine_getArgs64 sample_extras sample_stack true (List.replicate 9 0) 1000 =
      some ⟨[11, 22, 33, 0, 0, 0, 0, 1065, 1073], [1064, 1072], true⟩ ∧
    Pine_getArgs32 sample_extras sample_stack true (List.replicate 5 0) 1000 true =
      some ⟨[22, 33, 1013, 1017, 1021], [1012, 1016, 1020], true⟩ ∧
    (∃ r, Pine_getArgs64 sample_extras sample_stack true (List.replicate 9 0) 1000 = some r ∧
      r.array[8]? = some (sample_stack (stack_arg_addr64 1000 8))) ∧
    (∃ r, Pine_getArgs32 sample_extras sample_stack true (List.replicate 5 0) 1000 true =
        some r ∧
      r.array[4]? = some (sample_stack (stack_arg_addr32 1000 4))) ∧
    stack_arg_addr64 1000 8 = 1000 + 8 + 8 * 8 ∧
    stack_arg_addr32 1000 4 = 1000 + 4 + 4 * 4 := by
  have h := stack_words_are_frame_reads sample_extras sample_stack 1000
  refine ⟨by decide, by decide, by decide, by decide, ?_, ?_, ?_, ?_⟩
  · obtain ⟨r, hr, _, _, _, _, _, hs, _⟩ := h.1 (List.replicate 9 0) (by decide)
    exact ⟨r, hr, hs 8 (by decide) (by decide)⟩
  · obtain ⟨r, hr, _, _, _, hs⟩ := h.2.1 (List.replicate 5 0) true (by decide)
    exact ⟨r, hr, hs 4 (by decide) (by decide)⟩
  · exact h.2.2.1 8 (by decide) (by decide)
  · exact h.2.2.2.1 4 (by decide)

end pine
